import Mathlib

/-!
Verification of the `discover-release` task (src/main.py) against its
natural-language specification.

The program moves every object under a key prefix from an embargo bucket to a
publish bucket via multipart server-side copy, deletes the originals, and
writes an audit manifest to both buckets.  The Lean development below is a
shallow embedding of the Python source: pure helpers become Lean functions,
the store-calling code becomes functions over explicit call-outcome oracles
that also record the sequence of store operations issued, and Python
exceptions become `Except` errors.
-/

namespace DiscoverRelease

/-- Python exceptions that the modelled code can raise.
`typeError` models the `TypeError` raised by `os.environ.get()` called with
no argument (src/main.py line 303); `assertionError` models a failing
`assert`; `storeError` models an exception raised by an S3 call. -/
inductive PyErr where
  | typeError
  | assertionError
  | storeError (msg : String)
deriving DecidableEq

/-- A bucket state, as the set of (bucket name, key) pairs that exist. -/
abbrev Store := List (String × String)

-- --------------------------------------------------------------------------
-- FileCopier.byte_range / FileCopier.generate_part_list (src/main.py 177-191)
-- --------------------------------------------------------------------------

/-- Model of `FileCopier.byte_range` (src/main.py line 177):
the string `bytes=offset-(offset+size-1)`. -/
def byte_range (offset size : Nat) : String :=
  "bytes=" ++ toString offset ++ "-" ++ toString (offset + size - 1)

/-- The loop of `FileCopier.generate_part_list` (src/main.py lines 180-191),
recording each part as the pair (offset, length) instead of the rendered
byte-range string.  The Python `while offset < object_size` loop is modelled
with a fuel argument; fuel `object_size` suffices whenever
`max_part_size > 0` because `offset` then grows by at least 1 per iteration. -/
def partsAux (object_size max_part_size : Nat) : Nat → Nat → List (Nat × Nat)
  | 0, _ => []
  | fuel + 1, offset =>
    if offset < object_size then
      let remaining := object_size - offset
      if max_part_size ≤ remaining then
        (offset, max_part_size) :: partsAux object_size max_part_size fuel (offset + max_part_size)
      else
        (offset, remaining) :: partsAux object_size max_part_size fuel (offset + remaining)
    else []

/-- The parts produced by `FileCopier.generate_part_list`, as (offset, length)
pairs. -/
def generate_parts (object_size max_part_size : Nat) : List (Nat × Nat) :=
  partsAux object_size max_part_size object_size 0

/-- The loop of `FileCopier.generate_part_list` exactly as in the source:
it appends the rendered `byte_range` strings. -/
def partsStrAux (object_size max_part_size : Nat) : Nat → Nat → List String
  | 0, _ => []
  | fuel + 1, offset =>
    if offset < object_size then
      let remaining := object_size - offset
      if max_part_size ≤ remaining then
        byte_range offset max_part_size ::
          partsStrAux object_size max_part_size fuel (offset + max_part_size)
      else
        byte_range offset remaining ::
          partsStrAux object_size max_part_size fuel (offset + remaining)
    else []

/-- Model of `FileCopier.generate_part_list` (src/main.py lines 180-191). -/
def generate_part_list (object_size max_part_size : Nat) : List String :=
  partsStrAux object_size max_part_size object_size 0

-- --------------------------------------------------------------------------
-- FileCopier.get_object_attributes (src/main.py 137-152)
-- --------------------------------------------------------------------------

/-- The fields of an `s3.get_object_attributes` response that the code reads.
Each field is `none` when the response dictionary lacks the corresponding
entry; `checksum` is `some none` when a `Checksum` entry is present but has
no `ChecksumSHA256` entry. -/
structure GetAttrsResponse where
  objectSize : Option Nat
  versionId : Option String
  etag : Option String
  checksum : Option (Option String)
deriving DecidableEq

/-- Model of the `ObjectAttributes` dataclass (src/main.py lines 80-87). -/
structure ObjectAttributes where
  bucket : String
  key : String
  size : Nat
  version_id : String
  etag : String
  sha256 : String
deriving DecidableEq

/-- Model of `FileCopier.get_object_attributes` (src/main.py lines 137-152)
applied to a response that the store returned: every missing field falls back
to a sentinel (`0` for the size, `"none"` for the rest) via `response.get`. -/
def get_object_attributes (bucket key : String) (response : GetAttrsResponse) :
    ObjectAttributes where
  bucket := bucket
  key := key
  size := response.objectSize.getD 0
  version_id := response.versionId.getD "none"
  etag := response.etag.getD "none"
  sha256 := (response.checksum.getD none).getD "none"

-- --------------------------------------------------------------------------
-- FileCopier.copy and its helpers (src/main.py 154-260)
-- --------------------------------------------------------------------------

/-- Model of the `CopyRequest` dataclass (src/main.py lines 105-112). -/
structure CopyRequest where
  source_bucket : String
  source_key : String
  target_bucket : String
  target_key : String
  max_part_size : Nat
  checksum_algorithm : String
deriving DecidableEq

/-- The `CopyPartResult` dictionary returned by `s3.upload_part_copy`. -/
structure CopyPartResult where
  etag : String
  checksumSHA256 : String
  lastModified : String
deriving DecidableEq

/-- The per-part record that `FileCopier.copy_parts` retains (src/main.py
lines 212-214): the `CopyPartResult` with `PartNumber` added and
`LastModified` removed. -/
structure PartEntry where
  etag : String
  checksumSHA256 : String
  partNumber : Nat
deriving DecidableEq

/-- Model of the `CopyResult` dataclass (src/main.py lines 115-128).  The two
size fields hold the result of Python's `str(...)` applied to the attribute
size (src/main.py lines 250 and 256), hence `String`. -/
structure CopyResult where
  source_bucket : String
  source_key : String
  source_size : String
  source_version_id : String
  source_etag : String
  source_sha256 : String
  target_bucket : String
  target_key : String
  target_size : String
  target_version_id : String
  target_etag : String
  target_sha256 : String
deriving DecidableEq

/-- Outcomes of the S3 calls issued during one `FileCopier.copy`: an oracle
recording, for each call the engine can make, whether the store raises and
what it returns.  Argument orders follow the keyword arguments at the call
sites in src/main.py. -/
structure S3CopyApi where
  create_multipart_upload : String → String → String → Except PyErr String
  get_object_attributes : String → String → Except PyErr GetAttrsResponse
  upload_part_copy : String → String → String × String → String → String → Nat →
    Except PyErr CopyPartResult
  complete_multipart_upload : String → String → String → List PartEntry → Except PyErr Unit

/-- The store calls observable during one `FileCopier.copy`.  The constructor
`copyObject` stands for the single-call `s3.copy_object` operation, which the
engine never issues (no call site exists in src/main.py); it is present so
that its absence from every trace can be stated. -/
inductive CopyEv where
  | createMultipart (bucket key : String)
  | getAttrs (bucket key : String)
  | uploadPartCopy (uploadId : String) (partNumber : Nat) (partRange : String)
  | completeMultipart (bucket key uploadId : String) (numParts : Nat)
  | copyObject (source_bucket source_key target_bucket target_key : String)
deriving DecidableEq

/-- The record kept for one part (src/main.py lines 212-214): `PartNumber`
is added and `LastModified` deleted from the `CopyPartResult`. -/
def toPartEntry (r : CopyPartResult) (n : Nat) : PartEntry :=
  { etag := r.etag, checksumSHA256 := r.checksumSHA256, partNumber := n }

namespace FileCopier

/-- Model of `FileCopier.copy_parts` (src/main.py lines 206-224): one
`upload_part_copy` call per byte range, with 1-based part numbers assigned in
range order (the accumulator starts at 0 and is incremented before each
call).  Returns the trace of issued calls and either the retained part
records or the first error. -/
def copy_parts (api : S3CopyApi) (request : CopyRequest) (upload_id : String) :
    Nat → List String → List CopyEv × Except PyErr (List PartEntry)
  | _, [] => ([], .ok [])
  | part_number, part_range :: rest =>
    let n := part_number + 1
    match api.upload_part_copy request.target_bucket request.target_key
        (request.source_bucket, request.source_key) upload_id part_range n with
    | .error e => ([.uploadPartCopy upload_id n part_range], .error e)
    | .ok r =>
      (.uploadPartCopy upload_id n part_range :: (copy_parts api request upload_id n rest).1,
       match (copy_parts api request upload_id n rest).2 with
       | .error e => .error e
       | .ok entries => .ok (toPartEntry r n :: entries))

/-- Model of `FileCopier.copy` (src/main.py lines 226-260): start the
multipart upload, fetch source attributes, partition by `max_part_size` (the
copier's own field, src/main.py line 239), copy each part sequentially,
complete the upload, fetch target attributes, and return the merged
`CopyResult`.  Returns the trace of issued store calls together with the
result or the first error raised. -/
def copy (api : S3CopyApi) (max_part_size : Nat) (request : CopyRequest) :
    List CopyEv × Except PyErr CopyResult :=
  let ev0 := CopyEv.createMultipart request.target_bucket request.target_key
  match api.create_multipart_upload request.target_bucket request.target_key
      request.checksum_algorithm with
  | .error e => ([ev0], .error e)
  | .ok upload_id =>
    let ev1 := CopyEv.getAttrs request.source_bucket request.source_key
    match api.get_object_attributes request.source_bucket request.source_key with
    | .error e => ([ev0, ev1], .error e)
    | .ok resp =>
      let source_attributes :=
        get_object_attributes request.source_bucket request.source_key resp
      let parts := generate_part_list source_attributes.size max_part_size
      let trParts := (copy_parts api request upload_id 0 parts).1
      match (copy_parts api request upload_id 0 parts).2 with
      | .error e => (ev0 :: ev1 :: trParts, .error e)
      | .ok copied_parts =>
        let ev2 := CopyEv.completeMultipart request.target_bucket request.target_key
          upload_id copied_parts.length
        match api.complete_multipart_upload request.target_bucket request.target_key
            upload_id copied_parts with
        | .error e => (ev0 :: ev1 :: (trParts ++ [ev2]), .error e)
        | .ok _ =>
          let ev3 := CopyEv.getAttrs request.target_bucket request.target_key
          match api.get_object_attributes request.target_bucket request.target_key with
          | .error e => (ev0 :: ev1 :: (trParts ++ [ev2, ev3]), .error e)
          | .ok resp2 =>
            let target_attributes :=
              get_object_attributes request.target_bucket request.target_key resp2
            (ev0 :: ev1 :: (trParts ++ [ev2, ev3]),
             .ok { source_bucket := source_attributes.bucket
                   source_key := source_attributes.key
                   source_size := toString source_attributes.size
                   source_version_id := source_attributes.version_id
                   source_etag := source_attributes.etag
                   source_sha256 := source_attributes.sha256
                   target_bucket := target_attributes.bucket
                   target_key := target_attributes.key
                   target_size := toString target_attributes.size
                   target_version_id := target_attributes.version_id
                   target_etag := target_attributes.etag
                   target_sha256 := target_attributes.sha256 })

end FileCopier

-- --------------------------------------------------------------------------
-- iter_keys (src/main.py 373-387) and the store's paginated listing
-- --------------------------------------------------------------------------

/-- Model of `iter_keys` (src/main.py lines 373-387) applied to the pages the
store's paginator returns: a page is `none` when it has no `Contents` entry
and `some keys` otherwise; the keys of every page holding a `Contents` entry
are yielded in order, and pages without one are skipped. -/
def iter_keys (pages : List (Option (List String))) : List String :=
  pages.flatMap fun page =>
    match page with
    | none => []
    | some contents => contents

/-- Fueled chunking of a key list into pages of at most `pageSize` keys. -/
def chunksAux (pageSize : Nat) : Nat → List String → List (List String)
  | 0, _ => []
  | _, [] => []
  | fuel + 1, l => l.take pageSize :: chunksAux pageSize fuel (l.drop pageSize)

/-- Model of the external store's paginated `list_objects_v2` listing (spec
section 6: the object store is an external collaborator): the keys under the
prefix, in store order, split into pages of at most `pageSize` entries; when
there are no keys the store returns a single page without a `Contents`
entry. -/
def listPages (keys : List String) (pageSize : Nat) : List (Option (List String)) :=
  if keys = [] then [none]
  else (chunksAux pageSize keys.length keys).map some

-- --------------------------------------------------------------------------
-- release_files (src/main.py 295-370)
-- --------------------------------------------------------------------------

/-- Python's `s3_key_prefix.endswith("/")` (src/main.py line 297): does the
last character exist and equal `'/'`. -/
def endswith_slash (s : String) : Bool :=
  s.data.getLast? == some '/'

/-- The normalization on src/main.py lines 296-298: append a trailing slash
when one is absent. -/
def ensureSlash (s : String) : String :=
  if endswith_slash s then s else s ++ "/"

/-- The store operations observable from `release_files`. -/
inductive RelEv where
  | copyObj (key : String)
  | deleteObj (key : String)
  | putObj (bucket key : String)
deriving DecidableEq

/-- Model of `release_files` (src/main.py lines 295-370), faithful to the
source: normalize the prefix, check the two `assert` statements, then execute
line 303, `delete_released_files = os.environ.get()` — a call of
`os.environ.get` with no argument, which unconditionally raises `TypeError`
in Python, so the function raises before any store operation.  The result is
the trace of store operations issued (always empty) and the outcome. -/
def release_files (_request_id : String) (s3_key_pfx : String)
    (_embargo_bucket _publish_bucket : String) (_store : Store) :
    List RelEv × Except PyErr Store :=
  let p := ensureSlash s3_key_pfx
  if ¬ endswith_slash p then ([], .error .assertionError)
  else if ¬ 1 < p.length then ([], .error .assertionError)
  else ([], .error .typeError)

/-- The copy phase of `release_files` (src/main.py lines 325-332): each
enumerated key is submitted to `copy_object`; results are collected; the
first raised error propagates.  The worker pool parallelizes the copies, but
the `for` loop over `imap_unordered` drains every task of this phase before
anything later runs, so the phase is modelled as the sequence of submitted
copy operations. -/
def copyPhase (copyF : String → Except PyErr CopyResult) :
    List String → List RelEv × Except PyErr (List CopyResult)
  | [] => ([], .ok [])
  | key :: keys =>
    match copyF key with
    | .error e => ([.copyObj key], .error e)
    | .ok r =>
      (.copyObj key :: (copyPhase copyF keys).1,
       match (copyPhase copyF keys).2 with
       | .error e => .error e
       | .ok rs => .ok (r :: rs))

/-- The delete phase of `release_files` (src/main.py lines 334-341): each
key of a fresh enumeration is submitted to `delete_object`; results are
discarded; the first raised error propagates. -/
def deletePhase (deleteF : String → Except PyErr Unit) :
    List String → List RelEv × Except PyErr Unit
  | [] => ([], .ok ())
  | key :: keys =>
    match deleteF key with
    | .error e => ([.deleteObj key], .error e)
    | .ok _ =>
      (.deleteObj key :: (deletePhase deleteF keys).1, (deletePhase deleteF keys).2)

/-- The body of `release_files` from src/main.py line 305 to line 370, the
code following the statement on line 303 (which, modelled faithfully in
`release_files`, always raises `TypeError`, leaving this remainder
unreachable in the source as written).  It is modelled here to settle the
claims about the phase structure of lines 320-370: copy phase over the first
enumeration, then delete phase over a fresh second enumeration, then the two
manifest `put_object` calls.  `copyF`, `deleteF` and `putF` are oracles for
the outcome of one `copy_object`, `delete_object` and `put_object` call;
`copyKeys` and `deleteKeys` are the two enumerations of the prefix returned
by `iter_keys` (the delete phase re-lists). -/
def release_files_main (copyF : String → Except PyErr CopyResult)
    (deleteF : String → Except PyErr Unit)
    (putF : String → String → List CopyResult → Except PyErr Unit)
    (s3_key_pfx _embargo_bucket _publish_bucket : String)
    (copyKeys deleteKeys : List String) :
    List RelEv × Except PyErr (List CopyResult) :=
  let tr1 := (copyPhase copyF copyKeys).1
  match (copyPhase copyF copyKeys).2 with
  | .error e => (tr1, .error e)
  | .ok copy_results =>
    let tr2 := (deletePhase deleteF deleteKeys).1
    match (deletePhase deleteF deleteKeys).2 with
    | .error e => (tr1 ++ tr2, .error e)
    | .ok _ =>
      let copy_results_key := s3_key_pfx ++ "discover-release-results.json"
      match putF _publish_bucket copy_results_key copy_results with
      | .error e => (tr1 ++ tr2 ++ [.putObj _publish_bucket copy_results_key], .error e)
      | .ok _ =>
        match putF _embargo_bucket copy_results_key copy_results with
        | .error e =>
          (tr1 ++ tr2 ++ [.putObj _publish_bucket copy_results_key,
                          .putObj _embargo_bucket copy_results_key], .error e)
        | .ok _ =>
          (tr1 ++ tr2 ++ [.putObj _publish_bucket copy_results_key,
                          .putObj _embargo_bucket copy_results_key], .ok copy_results)

-- --------------------------------------------------------------------------
-- Concrete inputs used by witnesses
-- --------------------------------------------------------------------------

/-- A store oracle on which every call succeeds and the attribute response
carries no optional field. -/
def apiAllOk : S3CopyApi where
  create_multipart_upload := fun _ _ _ => .ok "uid-0"
  get_object_attributes := fun _ _ => .ok ⟨none, none, none, none⟩
  upload_part_copy := fun _ _ _ _ _ _ => .ok ⟨"etag-p", "sha-p", "lm-p"⟩
  complete_multipart_upload := fun _ _ _ _ => .ok ()

/-- A store oracle on which every call succeeds and the attribute response
reports object size 0. -/
def apiSize0 : S3CopyApi where
  create_multipart_upload := fun _ _ _ => .ok "uid-z"
  get_object_attributes := fun _ _ => .ok ⟨some 0, some "v1", some "etag-0", some (some "sha-0")⟩
  upload_part_copy := fun _ _ _ _ _ _ => .ok ⟨"etag-p", "sha-p", "lm-p"⟩
  complete_multipart_upload := fun _ _ _ _ => .ok ()

/-- A sample copy request. -/
def req0 : CopyRequest :=
  { source_bucket := "embargo-bucket", source_key := "1/10/test.txt"
    target_bucket := "publish-bucket", target_key := "1/10/test.txt"
    max_part_size := 5, checksum_algorithm := "SHA256" }

/-- The bucket contents of the concrete release scenario of the spec: the
embargo bucket holds exactly the two test keys and the publish bucket is
empty. -/
def scenarioStore : Store :=
  [("test-embargo-bucket", "1/10/test.txt"), ("test-embargo-bucket", "1/100/test.txt")]

/-- 1200 pairwise-distinct keys, more than one 1000-entry listing page. -/
def ks1200 : List String :=
  (List.range 1200).map fun i => String.mk ('k' :: List.replicate i 'a')

/-- A sample successful per-object copy result. -/
def sampleCopyResult : CopyResult :=
  { source_bucket := "test-embargo-bucket", source_key := "1/10/test.txt"
    source_size := "4", source_version_id := "v1", source_etag := "e1", source_sha256 := "s1"
    target_bucket := "test-publish-bucket", target_key := "1/10/test.txt"
    target_size := "4", target_version_id := "v2", target_etag := "e1", target_sha256 := "s1" }

/-- A per-key copy oracle on which every copy succeeds. -/
def copyF0 : String → Except PyErr CopyResult := fun _ => .ok sampleCopyResult

/-- A per-key delete oracle on which every delete succeeds. -/
def deleteF0 : String → Except PyErr Unit := fun _ => .ok ()

/-- A put oracle on which every put succeeds. -/
def putF0 : String → String → List CopyResult → Except PyErr Unit := fun _ _ _ => .ok ()

/-- Two keys under the released test key space. -/
def ck0 : List String := ["1/10/test.txt", "1/10/other.txt"]

-- --------------------------------------------------------------------------
-- Facts about the part-list generator
-- --------------------------------------------------------------------------

lemma partsAux_stop (S M fuel offset : Nat) (h : S ≤ offset) :
    partsAux S M fuel offset = [] := by
  cases fuel with
  | zero => rfl
  | succ n =>
    simp only [partsAux]
    rw [if_neg (by omega)]

/-- Closed form of the `generate_part_list` loop: starting at `offset`, it
emits `(S - offset) / M` full parts of length `M` followed, when `M` does not
divide `S - offset`, by one final part holding the remainder. -/
lemma partsAux_eq (S M : Nat) (hM : 0 < M) :
    ∀ fuel offset, S - offset ≤ fuel →
    partsAux S M fuel offset =
      (List.range ((S - offset) / M)).map (fun i => (offset + i * M, M)) ++
        (if (S - offset) % M = 0 then []
         else [(offset + M * ((S - offset) / M), (S - offset) % M)]) := by
  intro fuel
  induction fuel with
  | zero =>
    intro offset h
    have h0 : S - offset = 0 := by omega
    simp [partsAux, h0]
  | succ n ih =>
    intro offset h
    by_cases ho : offset < S
    · by_cases hMr : M ≤ S - offset
      · have h' : S - (offset + M) ≤ n := by omega
        have hrec := ih (offset + M) h'
        have hr : S - offset = (S - (offset + M)) + M := by omega
        simp only [partsAux, if_pos ho, if_pos hMr]
        rw [hrec, hr, Nat.add_div_right _ hM, Nat.add_mod_right,
          List.range_succ_eq_map, List.map_cons, List.map_map, List.cons_append]
        refine congrArg₂ _ (by simp) (congrArg₂ _ ?_ ?_)
        · exact List.map_congr_left fun i _ => by
            simp [Function.comp, Nat.succ_mul]; omega
        · by_cases hz : (S - (offset + M)) % M = 0
          · simp [hz]
          · simp only [if_neg hz]
            have : offset + M * ((S - (offset + M)) / M + 1) =
                offset + M + M * ((S - (offset + M)) / M) := by ring
            rw [this]
      · have hr1 : 1 ≤ S - offset := by omega
        simp only [partsAux, if_pos ho, if_neg hMr]
        have hnext : offset + (S - offset) = S := by omega
        rw [hnext, partsAux_stop S M n S le_rfl]
        have hdiv : (S - offset) / M = 0 := Nat.div_eq_of_lt (by omega)
        have hmod : (S - offset) % M = S - offset := Nat.mod_eq_of_lt (by omega)
        rw [hdiv, hmod, if_neg (by omega)]
        simp
    · have h0 : S - offset = 0 := by omega
      rw [partsAux_stop S M (n + 1) offset (by omega)]
      simp [h0]

/-- Closed form of `generate_parts`. -/
lemma generate_parts_eq (S M : Nat) (hM : 0 < M) :
    generate_parts S M =
      (List.range (S / M)).map (fun i => (i * M, M)) ++
        (if S % M = 0 then [] else [(M * (S / M), S % M)]) := by
  have := partsAux_eq S M hM S 0 (by omega)
  simpa [generate_parts] using this

/-- The string-rendering loop is the numeric loop with `byte_range` applied
to each part. -/
lemma partsStrAux_eq_map (S M : Nat) :
    ∀ fuel offset, partsStrAux S M fuel offset =
      (partsAux S M fuel offset).map (fun p => byte_range p.1 p.2) := by
  intro fuel
  induction fuel with
  | zero => intro offset; rfl
  | succ n ih =>
    intro offset
    by_cases ho : offset < S
    · by_cases hMr : M ≤ S - offset
      · simp only [partsStrAux, partsAux, if_pos ho, if_pos hMr, List.map_cons, ih]
      · simp only [partsStrAux, partsAux, if_pos ho, if_neg hMr, List.map_cons, ih]
    · simp only [partsStrAux, partsAux, if_neg ho, List.map_nil]

/-- Ceiling division in terms of quotient and the divisibility of the rest. -/
lemma ceil_div_eq (S M : Nat) (hM : 0 < M) :
    (S + M - 1) / M = S / M + (if S % M = 0 then 0 else 1) := by
  have hdm := Nat.div_add_mod S M
  have hlt : S % M < M := Nat.mod_lt _ hM
  have hS : S + M - 1 = (S % M + M - 1) + (S / M) * M := by
    have : M * (S / M) = (S / M) * M := by ring
    omega
  rw [hS, Nat.add_mul_div_right _ _ hM]
  by_cases hz : S % M = 0
  · rw [hz, if_pos rfl]
    have : (0 + M - 1) / M = 0 := Nat.div_eq_of_lt (by omega)
    omega
  · rw [if_neg hz]
    have h1 : (S % M + M - 1) / M = 1 :=
      Nat.div_eq_of_lt_le (by omega) (by omega)
    omega

/-- The blocks of `M` consecutive naturals starting at multiples of `M`
assemble into an initial segment. -/
lemma range_blocks (M : Nat) :
    ∀ q, (List.range q).flatMap (fun i => (List.range M).map (fun b => i * M + b)) =
      List.range (q * M) := by
  intro q
  induction q with
  | zero => simp
  | succ n ih =>
    rw [List.range_succ, List.flatMap_append, ih]
    simp only [List.flatMap_cons, List.flatMap_nil, List.append_nil]
    rw [Nat.succ_mul, List.range_add]

/-- C1: for every object size `S ≥ 0` and max part size `M > 0`,
`generate_part_list S M` renders the parts of `generate_parts S M` as byte
ranges, and those parts are contiguous, non-overlapping and cover exactly
`[0, S)` (their concatenated byte offsets are exactly `List.range S`, and
each part ends before the next begins), number exactly
`⌈S / M⌉ = (S + M - 1) / M`, every part except possibly the last has length
`M`, when `M` does not divide `S` the last part takes the remainder `S % M`
(and otherwise every part, the last included, has length `M`), and size `0`
yields the empty list. -/
theorem C1_generate_part_list_correct (S M : Nat) (hM : 0 < M) :
    generate_part_list S M = (generate_parts S M).map (fun p => byte_range p.1 p.2) ∧
    (generate_parts S M).flatMap (fun p => (List.range p.2).map (fun b => p.1 + b)) =
      List.range S ∧
    List.Pairwise (fun p q => p.1 + p.2 ≤ q.1) (generate_parts S M) ∧
    (generate_parts S M).length = (S + M - 1) / M ∧
    (∀ p ∈ (generate_parts S M).dropLast, p.2 = M) ∧
    (S % M ≠ 0 → (generate_parts S M).getLast? = some (M * (S / M), S % M)) ∧
    (S % M = 0 → ∀ p ∈ generate_parts S M, p.2 = M) ∧
    (S = 0 → generate_parts S M = []) := by
  have hcf := generate_parts_eq S M hM
  refine ⟨?_, ?_, ?_, ?_, ?_, ?_, ?_, ?_⟩
  · simpa [generate_part_list, generate_parts] using partsStrAux_eq_map S M S 0
  · rw [hcf, List.flatMap_append]
    have hblocks : ((List.range (S / M)).map (fun i => (i * M, M))).flatMap
        (fun p => (List.range p.2).map (fun b => p.1 + b)) =
        List.range ((S / M) * M) := by
      rw [List.flatMap_map]
      exact range_blocks M (S / M)
    rw [hblocks]
    by_cases hz : S % M = 0
    · rw [if_pos hz]
      simp only [List.flatMap_nil, List.append_nil]
      have : (S / M) * M = S := by
        have := Nat.div_add_mod S M
        have hc : M * (S / M) = (S / M) * M := Nat.mul_comm _ _
        omega
      rw [this]
    · rw [if_neg hz]
      simp only [List.flatMap_cons, List.flatMap_nil, List.append_nil]
      have hSplit : S = (S / M) * M + S % M := by
        have := Nat.div_add_mod S M
        have hc : M * (S / M) = (S / M) * M := Nat.mul_comm _ _
        omega
      conv_rhs => rw [hSplit]
      rw [List.range_add]
      have : M * (S / M) = (S / M) * M := Nat.mul_comm _ _
      rw [this]
  · rw [hcf, List.pairwise_append]
    refine ⟨?_, ?_, ?_⟩
    · refine List.Pairwise.map _ (fun a b hab => ?_) (List.pairwise_lt_range (S / M))
      show a * M + M ≤ b * M
      calc a * M + M = (a + 1) * M := (Nat.succ_mul a M).symm
        _ ≤ b * M := Nat.mul_le_mul_right M hab
    · split <;> simp
    · intro a ha b hb
      obtain ⟨i, hi, rfl⟩ := List.mem_map.1 ha
      by_cases hz : S % M = 0
      · rw [if_pos hz] at hb
        simp at hb
      · rw [if_neg hz] at hb
        simp only [List.mem_singleton] at hb
        subst hb
        show i * M + M ≤ M * (S / M)
        have hi' : i + 1 ≤ S / M := List.mem_range.1 hi
        calc i * M + M = (i + 1) * M := (Nat.succ_mul i M).symm
          _ ≤ (S / M) * M := Nat.mul_le_mul_right M hi'
          _ = M * (S / M) := Nat.mul_comm _ _
  · rw [hcf, List.length_append, List.length_map, List.length_range, ceil_div_eq S M hM]
    split <;> simp
  · intro p hp
    rw [hcf] at hp
    by_cases hz : S % M = 0
    · rw [if_pos hz, List.append_nil] at hp
      have := List.dropLast_subset _ hp
      obtain ⟨i, _, rfl⟩ := List.mem_map.1 this
      rfl
    · rw [if_neg hz, List.dropLast_concat] at hp
      obtain ⟨i, _, rfl⟩ := List.mem_map.1 hp
      rfl
  · intro hz
    rw [hcf, if_neg hz, List.getLast?_concat]
  · intro hz p hp
    rw [hcf, if_pos hz, List.append_nil] at hp
    obtain ⟨i, _, rfl⟩ := List.mem_map.1 hp
    rfl
  · intro h0
    subst h0
    rfl

/-- Witness for C1 at object size 10 and max part size 4 (parts
`[0,4) [4,8) [8,10)`). -/
theorem C1_generate_part_list_correct_witness :
    0 < 4 ∧
    (generate_part_list 10 4 = (generate_parts 10 4).map (fun p => byte_range p.1 p.2) ∧
     (generate_parts 10 4).flatMap (fun p => (List.range p.2).map (fun b => p.1 + b)) =
       List.range 10 ∧
     List.Pairwise (fun p q => p.1 + p.2 ≤ q.1) (generate_parts 10 4) ∧
     (generate_parts 10 4).length = (10 + 4 - 1) / 4 ∧
     (∀ p ∈ (generate_parts 10 4).dropLast, p.2 = 4) ∧
     (10 % 4 ≠ 0 → (generate_parts 10 4).getLast? = some (4 * (10 / 4), 10 % 4)) ∧
     (10 % 4 = 0 → ∀ p ∈ generate_parts 10 4, p.2 = 4) ∧
     (10 = 0 → generate_parts 10 4 = [])) :=
  ⟨by decide, C1_generate_part_list_correct 10 4 (by decide)⟩

-- --------------------------------------------------------------------------
-- Facts about iter_keys and the paginated listing
-- --------------------------------------------------------------------------

lemma chunksAux_flatMap (n : Nat) (hn : 0 < n) :
    ∀ fuel l, l.length ≤ fuel → (chunksAux n fuel l).flatMap id = l := by
  intro fuel
  induction fuel with
  | zero =>
    intro l h
    have : l = [] := List.length_eq_zero.1 (by omega)
    subst this
    rfl
  | succ m ih =>
    intro l h
    cases l with
    | nil => rfl
    | cons a l' =>
      simp only [chunksAux, List.flatMap_cons, id]
      have hlen : ((a :: l').drop n).length ≤ m := by
        rw [List.length_drop]
        simp only [List.length_cons] at h ⊢
        omega
      rw [ih ((a :: l').drop n) hlen]
      exact List.take_append_drop n (a :: l')

lemma chunksAux_length_pos (n : Nat) (fuel : Nat) (l : List String)
    (hl : l ≠ []) (hf : 0 < fuel) : 0 < (chunksAux n fuel l).length := by
  cases fuel with
  | zero => omega
  | succ m =>
    cases l with
    | nil => exact absurd rfl hl
    | cons a l' => simp [chunksAux]

/-- The flattened paginated listing is exactly the key list. -/
lemma iter_keys_listPages (ks : List String) (pageSize : Nat) (hn : 0 < pageSize) :
    iter_keys (listPages ks pageSize) = ks := by
  by_cases hks : ks = []
  · subst hks
    rfl
  · rw [listPages, if_neg hks, iter_keys, List.flatMap_map]
    exact chunksAux_flatMap pageSize hn ks.length ks le_rfl

/-- A key set of more than 1000 keys spans more than one page. -/
lemma listPages_gt_one (ks : List String) (h : 1000 < ks.length) :
    1 < (listPages ks 1000).length := by
  have hks : ks ≠ [] := by
    intro hnil
    rw [hnil] at h
    simp at h
  rw [listPages, if_neg hks, List.length_map]
  cases ks with
  | nil => exact absurd rfl hks
  | cons a l' =>
    have hlen : (a :: l').length = l'.length + 1 := by simp
    rw [hlen]
    simp only [chunksAux, List.length_cons]
    have hdrop : (a :: l').drop 1000 ≠ [] := by
      intro hd
      have := congrArg List.length hd
      simp at this
      omega
    have := chunksAux_length_pos 1000 l'.length ((a :: l').drop 1000) hdrop (by simp at h; omega)
    omega

/-- C6: for every bucket state whose key set under the prefix exceeds one
1000-entry listing page, `iter_keys` applied to the paginated listing yields
every key exactly once — no duplicates, no omissions — concatenating the
pages in store order (the result is the key list itself, which spans more
than one page), and a page without a `Contents` entry yields nothing while
enumeration continues with the remaining pages. -/
theorem C6_iter_keys_exactly_once (ks : List String) (h1 : ks.Nodup)
    (h2 : 1000 < ks.length) :
    iter_keys (listPages ks 1000) = ks ∧
    (∀ k ∈ ks, (iter_keys (listPages ks 1000)).count k = 1) ∧
    (∀ k, k ∉ ks → (iter_keys (listPages ks 1000)).count k = 0) ∧
    1 < (listPages ks 1000).length ∧
    (∀ pre post, iter_keys (pre ++ none :: post) = iter_keys (pre ++ post)) := by
  have hmain := iter_keys_listPages ks 1000 (by omega)
  refine ⟨hmain, ?_, ?_, listPages_gt_one ks h2, ?_⟩
  · intro k hk
    rw [hmain]
    exact List.count_eq_one_of_mem h1 hk
  · intro k hk
    rw [hmain]
    exact List.count_eq_zero_of_not_mem hk
  · intro pre post
    simp [iter_keys, List.flatMap_append, List.flatMap_cons]

lemma ks1200_nodup : ks1200.Nodup := by
  refine List.Nodup.map ?_ (List.nodup_range 1200)
  intro i j hij
  have hl := congrArg (fun s => s.data.length) hij
  simp at hl
  omega

/-- Witness for C6 on a concrete set of 1200 distinct keys. -/
theorem C6_iter_keys_exactly_once_witness :
    (ks1200.Nodup ∧ 1000 < ks1200.length) ∧
    (iter_keys (listPages ks1200 1000) = ks1200 ∧
     (∀ k ∈ ks1200, (iter_keys (listPages ks1200 1000)).count k = 1) ∧
     (∀ k, k ∉ ks1200 → (iter_keys (listPages ks1200 1000)).count k = 0) ∧
     1 < (listPages ks1200 1000).length ∧
     (∀ pre post, iter_keys (pre ++ none :: post) = iter_keys (pre ++ post))) :=
  ⟨⟨ks1200_nodup, by simp [ks1200]⟩,
   C6_iter_keys_exactly_once ks1200 ks1200_nodup (by simp [ks1200])⟩

-- --------------------------------------------------------------------------
-- Facts about the release phases
-- --------------------------------------------------------------------------

lemma copyPhase_trace_copies (f : String → Except PyErr CopyResult) :
    ∀ ks, ∀ e ∈ (copyPhase f ks).1, ∃ k, e = RelEv.copyObj k := by
  intro ks
  induction ks with
  | nil => intro e he; simp [copyPhase] at he
  | cons k ks ih =>
    intro e he
    cases hf : f k with
    | error e' =>
      simp only [copyPhase, hf] at he
      simp at he
      exact ⟨k, he⟩
    | ok r =>
      simp only [copyPhase, hf, List.mem_cons] at he
      rcases he with rfl | hmem
      · exact ⟨k, rfl⟩
      · exact ih e hmem

lemma copyPhase_ok_trace (f : String → Except PyErr CopyResult) :
    ∀ ks rs, (copyPhase f ks).2 = Except.ok rs →
      (copyPhase f ks).1 = ks.map RelEv.copyObj := by
  intro ks
  induction ks with
  | nil => intro rs _; rfl
  | cons k ks ih =>
    intro rs h
    cases hf : f k with
    | error e' =>
      simp only [copyPhase, hf] at h
      exact Except.noConfusion h
    | ok r =>
      simp only [copyPhase, hf] at h ⊢
      cases hC : (copyPhase f ks).2 with
      | error e' => rw [hC] at h; simp at h
      | ok rs' => rw [List.map_cons, ih rs' hC]

lemma copyPhase_ok_all (f : String → Except PyErr CopyResult) :
    ∀ ks rs, (copyPhase f ks).2 = Except.ok rs → ∀ k ∈ ks, ∃ r, f k = Except.ok r := by
  intro ks
  induction ks with
  | nil => intro rs _ k hk; simp at hk
  | cons a ks ih =>
    intro rs h k hk
    cases hf : f a with
    | error e' =>
      simp only [copyPhase, hf] at h
      exact Except.noConfusion h
    | ok r =>
      simp only [copyPhase, hf] at h
      rcases List.mem_cons.1 hk with rfl | hmem
      · exact ⟨r, hf⟩
      · cases hC : (copyPhase f ks).2 with
        | error e' => rw [hC] at h; simp at h
        | ok rs' => exact ih rs' hC k hmem

lemma copyPhase_error_of_mem (f : String → Except PyErr CopyResult) :
    ∀ ks k, k ∈ ks → (∃ e, f k = Except.error e) →
      ∃ e', (copyPhase f ks).2 = Except.error e' := by
  intro ks
  induction ks with
  | nil => intro k hk; simp at hk
  | cons a ks ih =>
    intro k hk ⟨e, hfk⟩
    cases hf : f a with
    | error e' => exact ⟨e', by simp [copyPhase, hf]⟩
    | ok r =>
      rcases List.mem_cons.1 hk with rfl | hmem
      · rw [hf] at hfk; exact absurd hfk (by simp)
      · obtain ⟨e', hrec⟩ := ih k hmem ⟨e, hfk⟩
        exact ⟨e', by simp [copyPhase, hf, hrec]⟩

lemma deletePhase_trace_deletes (f : String → Except PyErr Unit) :
    ∀ ks, ∀ e ∈ (deletePhase f ks).1, ∃ k, e = RelEv.deleteObj k := by
  intro ks
  induction ks with
  | nil => intro e he; simp [deletePhase] at he
  | cons k ks ih =>
    intro e he
    cases hf : f k with
    | error e' =>
      simp only [deletePhase, hf] at he
      simp at he
      exact ⟨k, he⟩
    | ok u =>
      simp only [deletePhase, hf, List.mem_cons] at he
      rcases he with rfl | hmem
      · exact ⟨k, rfl⟩
      · exact ih e hmem

lemma deletePhase_ok_trace (f : String → Except PyErr Unit) :
    ∀ ks, (deletePhase f ks).2 = Except.ok () →
      (deletePhase f ks).1 = ks.map RelEv.deleteObj := by
  intro ks
  induction ks with
  | nil => intro _; rfl
  | cons k ks ih =>
    intro h
    cases hf : f k with
    | error e' =>
      simp only [deletePhase, hf] at h
      exact Except.noConfusion h
    | ok u =>
      simp only [deletePhase, hf] at h ⊢
      rw [List.map_cons, ih h]

lemma deletePhase_error_of_mem (f : String → Except PyErr Unit) :
    ∀ ks k, k ∈ ks → (∃ e, f k = Except.error e) →
      ∃ e', (deletePhase f ks).2 = Except.error e' := by
  intro ks
  induction ks with
  | nil => intro k hk; simp at hk
  | cons a ks ih =>
    intro k hk ⟨e, hfk⟩
    cases hf : f a with
    | error e' => exact ⟨e', by simp [deletePhase, hf]⟩
    | ok u =>
      rcases List.mem_cons.1 hk with rfl | hmem
      · rw [hf] at hfk; exact absurd hfk (by simp)
      · obtain ⟨e', hrec⟩ := ih k hmem ⟨e, hfk⟩
        exact ⟨e', by simp [deletePhase, hf, hrec]⟩

/-- Case analysis of one `release_files_main` run: either the copy phase
raises and the run stops with its trace, or the copy phase succeeds and the
delete phase raises, or both phases succeed and the two manifest puts follow
(each put possibly raising). -/
lemma release_main_spec (copyF : String → Except PyErr CopyResult)
    (deleteF : String → Except PyErr Unit)
    (putF : String → String → List CopyResult → Except PyErr Unit)
    (pfx eb pb : String) (ck dk : List String) :
    (∃ e, (copyPhase copyF ck).2 = Except.error e ∧
      release_files_main copyF deleteF putF pfx eb pb ck dk =
        ((copyPhase copyF ck).1, Except.error e)) ∨
    (∃ rs, (copyPhase copyF ck).2 = Except.ok rs ∧
      ((∃ e, (deletePhase deleteF dk).2 = Except.error e ∧
          release_files_main copyF deleteF putF pfx eb pb ck dk =
            ((copyPhase copyF ck).1 ++ (deletePhase deleteF dk).1, Except.error e)) ∨
       ((deletePhase deleteF dk).2 = Except.ok () ∧
        ((∃ e, putF pb (pfx ++ "discover-release-results.json") rs = Except.error e ∧
            release_files_main copyF deleteF putF pfx eb pb ck dk =
              ((copyPhase copyF ck).1 ++ (deletePhase deleteF dk).1 ++
                 [RelEv.putObj pb (pfx ++ "discover-release-results.json")],
               Except.error e)) ∨
         (∃ e, putF pb (pfx ++ "discover-release-results.json") rs = Except.ok () ∧
            putF eb (pfx ++ "discover-release-results.json") rs = Except.error e ∧
            release_files_main copyF deleteF putF pfx eb pb ck dk =
              ((copyPhase copyF ck).1 ++ (deletePhase deleteF dk).1 ++
                 [RelEv.putObj pb (pfx ++ "discover-release-results.json"),
                  RelEv.putObj eb (pfx ++ "discover-release-results.json")],
               Except.error e)) ∨
         (putF pb (pfx ++ "discover-release-results.json") rs = Except.ok () ∧
            putF eb (pfx ++ "discover-release-results.json") rs = Except.ok () ∧
            release_files_main copyF deleteF putF pfx eb pb ck dk =
              ((copyPhase copyF ck).1 ++ (deletePhase deleteF dk).1 ++
                 [RelEv.putObj pb (pfx ++ "discover-release-results.json"),
                  RelEv.putObj eb (pfx ++ "discover-release-results.json")],
               Except.ok rs)))))) := by
  cases hC : (copyPhase copyF ck).2 with
  | error e => exact Or.inl ⟨e, rfl, by simp only [release_files_main, hC]⟩
  | ok rs =>
    refine Or.inr ⟨rs, rfl, ?_⟩
    cases hD : (deletePhase deleteF dk).2 with
    | error e => exact Or.inl ⟨e, rfl, by simp only [release_files_main, hC, hD]⟩
    | ok u =>
      cases u
      refine Or.inr ⟨rfl, ?_⟩
      cases hP1 : putF pb (pfx ++ "discover-release-results.json") rs with
      | error e =>
        exact Or.inl ⟨e, rfl, by simp only [release_files_main, hC, hD, hP1]⟩
      | ok u1 =>
        cases u1
        cases hP2 : putF eb (pfx ++ "discover-release-results.json") rs with
        | error e =>
          exact Or.inr (Or.inl ⟨e, rfl, rfl, by
            simp only [release_files_main, hC, hD, hP1, hP2]⟩)
        | ok u2 =>
          cases u2
          exact Or.inr (Or.inr ⟨rfl, rfl, by
            simp only [release_files_main, hC, hD, hP1, hP2]⟩)

/-- `release_files` as written always stops in its validation prologue: with
line 303 modelled faithfully it returns either an assertion failure or the
`TypeError` of the no-argument environment lookup, and issues no store
operation either way. -/
lemma release_files_cases (rid pfx eb pb : String) (st : Store) :
    release_files rid pfx eb pb st = ([], Except.error PyErr.assertionError) ∨
    release_files rid pfx eb pb st = ([], Except.error PyErr.typeError) := by
  simp only [release_files]
  by_cases h1 : ¬ endswith_slash (ensureSlash pfx) = true
  · rw [if_pos h1]
    exact Or.inl rfl
  · rw [if_neg h1]
    by_cases h2 : ¬ 1 < (ensureSlash pfx).length
    · rw [if_pos h2]
      exact Or.inl rfl
    · rw [if_neg h2]
      exact Or.inr rfl

lemma release_files_trace_nil (rid pfx eb pb : String) (st : Store) :
    (release_files rid pfx eb pb st).1 = [] := by
  rcases release_files_cases rid pfx eb pb st with h | h <;> rw [h]

/-- C2: in every run of the release orchestration, a delete is issued only
if the copy phase has already completed for every enumerated key (its trace
submitted every key and it returned successfully); the trace decomposes into
a copy segment followed by a delete segment followed by a manifest segment,
so the two phases never overlap; a copy-phase failure means no delete event
occurs at all; and the `release_files` entry point as written issues no
store operation whatsoever. -/
theorem C2_no_delete_before_copy_phase_completes
    (copyF : String → Except PyErr CopyResult) (deleteF : String → Except PyErr Unit)
    (putF : String → String → List CopyResult → Except PyErr Unit)
    (pfx eb pb : String) (ck dk : List String) :
    ((∃ k, RelEv.deleteObj k ∈ (release_files_main copyF deleteF putF pfx eb pb ck dk).1) →
      (copyPhase copyF ck).1 = ck.map RelEv.copyObj ∧
      ∃ rs, (copyPhase copyF ck).2 = Except.ok rs ∧ ∀ k ∈ ck, ∃ r, copyF k = Except.ok r) ∧
    (∃ c d q, (release_files_main copyF deleteF putF pfx eb pb ck dk).1 = c ++ d ++ q ∧
      (∀ e ∈ c, ∃ k, e = RelEv.copyObj k) ∧
      (∀ e ∈ d, ∃ k, e = RelEv.deleteObj k) ∧
      (∀ e ∈ q, ∃ b k, e = RelEv.putObj b k)) ∧
    ((∃ e, (copyPhase copyF ck).2 = Except.error e) →
      ∀ k, RelEv.deleteObj k ∉ (release_files_main copyF deleteF putF pfx eb pb ck dk).1) ∧
    (∀ rid st, (release_files rid pfx eb pb st).1 = []) := by
  have hput2 : ∀ e ∈ [RelEv.putObj pb (pfx ++ "discover-release-results.json"),
      RelEv.putObj eb (pfx ++ "discover-release-results.json")],
      ∃ b k, e = RelEv.putObj b k := by
    intro e he
    rcases List.mem_cons.1 he with rfl | he'
    · exact ⟨_, _, rfl⟩
    · rcases List.mem_singleton.1 he' with rfl
      exact ⟨_, _, rfl⟩
  have hput1 : ∀ e ∈ [RelEv.putObj pb (pfx ++ "discover-release-results.json")],
      ∃ b k, e = RelEv.putObj b k := by
    intro e he
    rcases List.mem_singleton.1 he with rfl
    exact ⟨_, _, rfl⟩
  rcases release_main_spec copyF deleteF putF pfx eb pb ck dk with
    ⟨e, hC, hR⟩ | ⟨rs, hC, hrest⟩
  · refine ⟨?_, ?_, ?_, fun rid st => release_files_trace_nil rid pfx eb pb st⟩
    · rintro ⟨k, hk⟩
      rw [hR] at hk
      obtain ⟨k', hk'⟩ := copyPhase_trace_copies copyF ck _ hk
      exact absurd hk' (by simp)
    · refine ⟨(copyPhase copyF ck).1, [], [], by rw [hR]; simp,
        copyPhase_trace_copies copyF ck, by simp, by simp⟩
    · intro _ k hk
      rw [hR] at hk
      obtain ⟨k', hk'⟩ := copyPhase_trace_copies copyF ck _ hk
      exact absurd hk' (by simp)
  · have hcompleted : (copyPhase copyF ck).1 = ck.map RelEv.copyObj ∧
        ∃ rs', (copyPhase copyF ck).2 = Except.ok rs' ∧
          ∀ k ∈ ck, ∃ r, copyF k = Except.ok r :=
      ⟨copyPhase_ok_trace copyF ck rs hC, rs, hC, copyPhase_ok_all copyF ck rs hC⟩
    have hnoerr : (∃ e, (copyPhase copyF ck).2 = Except.error e) → False := by
      rintro ⟨e, he⟩
      rw [hC] at he
      exact Except.noConfusion he
    rcases hrest with ⟨e, hD, hR⟩ | ⟨hD, hputs⟩
    · refine ⟨fun _ => hcompleted, ?_, fun h => absurd h hnoerr,
        fun rid st => release_files_trace_nil rid pfx eb pb st⟩
      exact ⟨(copyPhase copyF ck).1, (deletePhase deleteF dk).1, [], by rw [hR]; simp,
        copyPhase_trace_copies copyF ck, deletePhase_trace_deletes deleteF dk, by simp⟩
    · rcases hputs with ⟨e, _, hR⟩ | ⟨e, _, _, hR⟩ | ⟨_, _, hR⟩
      · exact ⟨fun _ => hcompleted,
          ⟨(copyPhase copyF ck).1, (deletePhase deleteF dk).1, _, by rw [hR],
            copyPhase_trace_copies copyF ck, deletePhase_trace_deletes deleteF dk, hput1⟩,
          fun h => absurd h hnoerr,
          fun rid st => release_files_trace_nil rid pfx eb pb st⟩
      · exact ⟨fun _ => hcompleted,
          ⟨(copyPhase copyF ck).1, (deletePhase deleteF dk).1, _, by rw [hR],
            copyPhase_trace_copies copyF ck, deletePhase_trace_deletes deleteF dk, hput2⟩,
          fun h => absurd h hnoerr,
          fun rid st => release_files_trace_nil rid pfx eb pb st⟩
      · exact ⟨fun _ => hcompleted,
          ⟨(copyPhase copyF ck).1, (deletePhase deleteF dk).1, _, by rw [hR],
            copyPhase_trace_copies copyF ck, deletePhase_trace_deletes deleteF dk, hput2⟩,
          fun h => absurd h hnoerr,
          fun rid st => release_files_trace_nil rid pfx eb pb st⟩

/-- Witness for C2 on a concrete all-success run over two keys. -/
theorem C2_no_delete_before_copy_phase_completes_witness :
    ((∃ k, RelEv.deleteObj k ∈
        (release_files_main copyF0 deleteF0 putF0 "1/10/" "test-embargo-bucket"
          "test-publish-bucket" ck0 ck0).1) →
      (copyPhase copyF0 ck0).1 = ck0.map RelEv.copyObj ∧
      ∃ rs, (copyPhase copyF0 ck0).2 = Except.ok rs ∧
        ∀ k ∈ ck0, ∃ r, copyF0 k = Except.ok r) ∧
    (∃ c d q, (release_files_main copyF0 deleteF0 putF0 "1/10/" "test-embargo-bucket"
        "test-publish-bucket" ck0 ck0).1 = c ++ d ++ q ∧
      (∀ e ∈ c, ∃ k, e = RelEv.copyObj k) ∧
      (∀ e ∈ d, ∃ k, e = RelEv.deleteObj k) ∧
      (∀ e ∈ q, ∃ b k, e = RelEv.putObj b k)) ∧
    ((∃ e, (copyPhase copyF0 ck0).2 = Except.error e) →
      ∀ k, RelEv.deleteObj k ∉
        (release_files_main copyF0 deleteF0 putF0 "1/10/" "test-embargo-bucket"
          "test-publish-bucket" ck0 ck0).1) ∧
    (∀ rid st, (release_files rid "1/10/" "test-embargo-bucket" "test-publish-bucket" st).1 = []) :=
  C2_no_delete_before_copy_phase_completes copyF0 deleteF0 putF0 "1/10/"
    "test-embargo-bucket" "test-publish-bucket" ck0 ck0

/-- C3: a manifest put is issued only when both the copy phase and the
delete phase returned successfully; a failing copy or delete propagates as
the run's error and suppresses both manifest puts; a successful run's trace
is exactly the copies, then the deletes, then the put to the publish bucket
followed by the put to the embargo bucket; and `release_files` as written
never issues a put. -/
theorem C3_manifest_only_after_both_phases
    (copyF : String → Except PyErr CopyResult) (deleteF : String → Except PyErr Unit)
    (putF : String → String → List CopyResult → Except PyErr Unit)
    (pfx eb pb : String) (ck dk : List String) :
    ((∃ b k, RelEv.putObj b k ∈ (release_files_main copyF deleteF putF pfx eb pb ck dk).1) →
      (∃ rs, (copyPhase copyF ck).2 = Except.ok rs) ∧
        (deletePhase deleteF dk).2 = Except.ok ()) ∧
    ((∃ k ∈ ck, ∃ e, copyF k = Except.error e) →
      (∃ e, (release_files_main copyF deleteF putF pfx eb pb ck dk).2 = Except.error e) ∧
      ∀ b k, RelEv.putObj b k ∉ (release_files_main copyF deleteF putF pfx eb pb ck dk).1) ∧
    ((∃ k ∈ dk, ∃ e, deleteF k = Except.error e) →
      (∃ e, (release_files_main copyF deleteF putF pfx eb pb ck dk).2 = Except.error e) ∧
      ∀ b k, RelEv.putObj b k ∉ (release_files_main copyF deleteF putF pfx eb pb ck dk).1) ∧
    (∀ rs, (release_files_main copyF deleteF putF pfx eb pb ck dk).2 = Except.ok rs →
      (release_files_main copyF deleteF putF pfx eb pb ck dk).1 =
        ck.map RelEv.copyObj ++ dk.map RelEv.deleteObj ++
          [RelEv.putObj pb (pfx ++ "discover-release-results.json"),
           RelEv.putObj eb (pfx ++ "discover-release-results.json")]) ∧
    (∀ rid st b k, RelEv.putObj b k ∉ (release_files rid pfx eb pb st).1) := by
  have hnil : ∀ rid st b k, RelEv.putObj b k ∉ (release_files rid pfx eb pb st).1 := by
    intro rid st b k hmem
    rw [release_files_trace_nil rid pfx eb pb st] at hmem
    exact absurd hmem (List.not_mem_nil _)
  rcases release_main_spec copyF deleteF putF pfx eb pb ck dk with
    ⟨e, hC, hR⟩ | ⟨rs, hC, hrest⟩
  · -- copy phase raised: trace is copy events only, result is the error
    have hnoput : ∀ b k, RelEv.putObj b k ∉
        (release_files_main copyF deleteF putF pfx eb pb ck dk).1 := by
      intro b k hmem
      rw [hR] at hmem
      obtain ⟨k', hk'⟩ := copyPhase_trace_copies copyF ck _ hmem
      exact absurd hk' (by simp)
    have hnodelete : ∀ b k, RelEv.putObj b k ∉
        (release_files_main copyF deleteF putF pfx eb pb ck dk).1 := hnoput
    refine ⟨?_, ?_, ?_, ?_, hnil⟩
    · rintro ⟨b, k, hmem⟩
      exact absurd hmem (hnoput b k)
    · intro _
      exact ⟨⟨e, by rw [hR]⟩, hnoput⟩
    · intro _
      exact ⟨⟨e, by rw [hR]⟩, hnoput⟩
    · intro rs hok
      rw [hR] at hok
      exact absurd hok (by simp)
  · have hnocopyfail : (∃ k ∈ ck, ∃ e, copyF k = Except.error e) → False := by
      rintro ⟨k, hk, he⟩
      obtain ⟨e', he'⟩ := copyPhase_error_of_mem copyF ck k hk he
      rw [hC] at he'
      exact Except.noConfusion he'
    rcases hrest with ⟨e, hD, hR⟩ | ⟨hD, hputs⟩
    · -- delete phase raised
      have hnoput : ∀ b k, RelEv.putObj b k ∉
          (release_files_main copyF deleteF putF pfx eb pb ck dk).1 := by
        intro b k hmem
        rw [hR] at hmem
        rcases List.mem_append.1 hmem with hm | hm
        · obtain ⟨k', hk'⟩ := copyPhase_trace_copies copyF ck _ hm
          exact absurd hk' (by simp)
        · obtain ⟨k', hk'⟩ := deletePhase_trace_deletes deleteF dk _ hm
          exact absurd hk' (by simp)
      refine ⟨?_, fun h => absurd h hnocopyfail, ?_, ?_, hnil⟩
      · rintro ⟨b, k, hmem⟩
        exact absurd hmem (hnoput b k)
      · intro _
        exact ⟨⟨e, by rw [hR]⟩, hnoput⟩
      · intro rs' hok
        rw [hR] at hok
        exact absurd hok (by simp)
    · have hnodeletefail : (∃ k ∈ dk, ∃ e, deleteF k = Except.error e) → False := by
        rintro ⟨k, hk, he⟩
        obtain ⟨e', he'⟩ := deletePhase_error_of_mem deleteF dk k hk he
        rw [hD] at he'
        exact Except.noConfusion he'
      have hphases : (∃ rs', (copyPhase copyF ck).2 = Except.ok rs') ∧
          (deletePhase deleteF dk).2 = Except.ok () := ⟨⟨rs, hC⟩, hD⟩
      rcases hputs with ⟨e, _, hR⟩ | ⟨e, _, _, hR⟩ | ⟨_, _, hR⟩
      · refine ⟨fun _ => hphases, fun h => absurd h hnocopyfail,
          fun h => absurd h hnodeletefail, ?_, hnil⟩
        intro rs' hok
        rw [hR] at hok
        exact absurd hok (by simp)
      · refine ⟨fun _ => hphases, fun h => absurd h hnocopyfail,
          fun h => absurd h hnodeletefail, ?_, hnil⟩
        intro rs' hok
        rw [hR] at hok
        exact absurd hok (by simp)
      · refine ⟨fun _ => hphases, fun h => absurd h hnocopyfail,
          fun h => absurd h hnodeletefail, ?_, hnil⟩
        intro rs' hok
        rw [hR]
        rw [copyPhase_ok_trace copyF ck rs hC, deletePhase_ok_trace deleteF dk hD]

/-- Witness for C3 on a concrete all-success run over two keys. -/
theorem C3_manifest_only_after_both_phases_witness :
    ((∃ b k, RelEv.putObj b k ∈
        (release_files_main copyF0 deleteF0 putF0 "1/10/" "test-embargo-bucket"
          "test-publish-bucket" ck0 ck0).1) →
      (∃ rs, (copyPhase copyF0 ck0).2 = Except.ok rs) ∧
        (deletePhase deleteF0 ck0).2 = Except.ok ()) ∧
    ((∃ k ∈ ck0, ∃ e, copyF0 k = Except.error e) →
      (∃ e, (release_files_main copyF0 deleteF0 putF0 "1/10/" "test-embargo-bucket"
        "test-publish-bucket" ck0 ck0).2 = Except.error e) ∧
      ∀ b k, RelEv.putObj b k ∉
        (release_files_main copyF0 deleteF0 putF0 "1/10/" "test-embargo-bucket"
          "test-publish-bucket" ck0 ck0).1) ∧
    ((∃ k ∈ ck0, ∃ e, deleteF0 k = Except.error e) →
      (∃ e, (release_files_main copyF0 deleteF0 putF0 "1/10/" "test-embargo-bucket"
        "test-publish-bucket" ck0 ck0).2 = Except.error e) ∧
      ∀ b k, RelEv.putObj b k ∉
        (release_files_main copyF0 deleteF0 putF0 "1/10/" "test-embargo-bucket"
          "test-publish-bucket" ck0 ck0).1) ∧
    (∀ rs, (release_files_main copyF0 deleteF0 putF0 "1/10/" "test-embargo-bucket"
        "test-publish-bucket" ck0 ck0).2 = Except.ok rs →
      (release_files_main copyF0 deleteF0 putF0 "1/10/" "test-embargo-bucket"
        "test-publish-bucket" ck0 ck0).1 =
        ck0.map RelEv.copyObj ++ ck0.map RelEv.deleteObj ++
          [RelEv.putObj "test-publish-bucket" ("1/10/" ++ "discover-release-results.json"),
           RelEv.putObj "test-embargo-bucket" ("1/10/" ++ "discover-release-results.json")]) ∧
    (∀ rid st b k, RelEv.putObj b k ∉
      (release_files rid "1/10/" "test-embargo-bucket" "test-publish-bucket" st).1) :=
  C3_manifest_only_after_both_phases copyF0 deleteF0 putF0 "1/10/"
    "test-embargo-bucket" "test-publish-bucket" ck0 ck0

-- --------------------------------------------------------------------------
-- Facts about prefix normalization and the validation prologue
-- --------------------------------------------------------------------------

lemma endswith_slash_append (s : String) : endswith_slash (s ++ "/") = true := by
  unfold endswith_slash
  rw [String.data_append]
  have h : ("/" : String).data = ['/'] := rfl
  rw [h, List.getLast?_concat]
  rfl

lemma ensureSlash_endswith (s : String) : endswith_slash (ensureSlash s) = true := by
  unfold ensureSlash
  split
  · assumption
  · exact endswith_slash_append s

/-- The normalized form is short exactly for the empty and the root
(single-separator) raw value. -/
lemma ensureSlash_short_iff (pfx : String) :
    (ensureSlash pfx).length ≤ 1 ↔ (pfx = "" ∨ pfx = "/") := by
  constructor
  · intro h
    unfold ensureSlash at h
    split at h
    · next hend =>
      right
      unfold endswith_slash at hend
      have hlast : pfx.data.getLast? = some '/' := eq_of_beq hend
      have hne : pfx.data ≠ [] := by
        intro hnil
        rw [hnil] at hlast
        exact Option.noConfusion hlast
      have hlen : pfx.data.length = 1 := by
        have h1 : 1 ≤ pfx.data.length := by
          cases hd : pfx.data with
          | nil => exact absurd hd hne
          | cons a l => simp [hd]
        have h2 : pfx.length = pfx.data.length := rfl
        omega
      obtain ⟨a, ha⟩ := List.length_eq_one.1 hlen
      rw [ha] at hlast
      simp at hlast
      apply String.ext
      rw [ha, hlast]
    · left
      rw [String.length_append] at h
      have h1 : ("/" : String).length = 1 := rfl
      have h0 : pfx.length = 0 := by omega
      have := List.length_eq_zero.1 h0
      exact String.ext this
  · rintro (rfl | rfl) <;> decide

/-- C4: for every input whose (normalized) prefix passes the validation
asserts, `release_files` stops at the modelled line 303 — the no-argument
`os.environ.get()` call — raising `TypeError` with an empty store-operation
trace: it never returns normally and never touches either bucket. -/
theorem C4_env_lookup_always_raises (rid pfx eb pb : String) (st : Store)
    (h : 1 < (ensureSlash pfx).length) :
    release_files rid pfx eb pb st = ([], Except.error PyErr.typeError) ∧
    ∀ st', (release_files rid pfx eb pb st).2 ≠ Except.ok st' := by
  have hend := ensureSlash_endswith pfx
  have hmain : release_files rid pfx eb pb st = ([], Except.error PyErr.typeError) := by
    simp only [release_files]
    rw [if_neg (by simp [hend]), if_neg (by omega)]
  refine ⟨hmain, fun st' hc => ?_⟩
  rw [hmain] at hc
  exact Except.noConfusion hc

/-- Witness for C4 at the concrete prefix `2/20/`. -/
theorem C4_env_lookup_always_raises_witness :
    1 < (ensureSlash "2/20/").length ∧
    (release_files "req-2" "2/20/" "embargo-b" "publish-b" [] =
      ([], Except.error PyErr.typeError) ∧
     ∀ st', (release_files "req-2" "2/20/" "embargo-b" "publish-b" []).2 ≠ Except.ok st') :=
  ⟨by decide, C4_env_lookup_always_raises "req-2" "2/20/" "embargo-b" "publish-b" [] (by decide)⟩

/-- C5 evaluation: at the spec's concrete release scenario (embargo bucket
holding `1/10/test.txt` and `1/100/test.txt`, publish bucket empty, releasing
`1/10/`), the code does not terminate successfully: it raises `TypeError` at
the modelled line 303 (`os.environ.get()` with no argument) before issuing
any store operation, so neither bucket changes and no manifest exists —
contradicting the claimed outcome, which matches the repository's own test
`test_copy_files_to_publish_bucket`. -/
theorem C5_scenario_raises_before_any_store_op :
    release_files "release-request-1" "1/10/" "test-embargo-bucket" "test-publish-bucket"
      scenarioStore = ([], Except.error PyErr.typeError) ∧
    ∀ st', (release_files "release-request-1" "1/10/" "test-embargo-bucket"
      "test-publish-bucket" scenarioStore).2 ≠ Except.ok st' := by
  have hmain : release_files "release-request-1" "1/10/" "test-embargo-bucket"
      "test-publish-bucket" scenarioStore = ([], Except.error PyErr.typeError) := rfl
  refine ⟨hmain, fun st' hc => ?_⟩
  rw [hmain] at hc
  exact Except.noConfusion hc

/-- C7: a prefix lacking the trailing separator normalizes to the same value
as its slash-terminated form, so `release_files` behaves identically on the
two spellings (same trace, same outcome), and so does the orchestration body
on the normalized prefix, for every oracle and key enumeration. -/
theorem C7_trailing_separator_equivalent (pfx : String) (_hlen : 1 < pfx.length)
    (h2 : endswith_slash pfx = false) (rid eb pb : String) (st : Store) :
    ensureSlash pfx = ensureSlash (pfx ++ "/") ∧
    release_files rid pfx eb pb st = release_files rid (pfx ++ "/") eb pb st ∧
    (∀ copyF deleteF putF ck dk,
      release_files_main copyF deleteF putF (ensureSlash pfx) eb pb ck dk =
        release_files_main copyF deleteF putF (ensureSlash (pfx ++ "/")) eb pb ck dk) := by
  have hES : ensureSlash pfx = pfx ++ "/" := by
    unfold ensureSlash
    rw [if_neg (by simp [h2])]
  have hES2 : ensureSlash (pfx ++ "/") = pfx ++ "/" := by
    unfold ensureSlash
    rw [if_pos (endswith_slash_append pfx)]
  have hEq : ensureSlash pfx = ensureSlash (pfx ++ "/") := by rw [hES, hES2]
  refine ⟨hEq, ?_, ?_⟩
  · simp only [release_files]
    rw [hEq]
  · intro copyF deleteF putF ck dk
    rw [hEq]

/-- Witness for C7 at the concrete prefix `1/10`. -/
theorem C7_trailing_separator_equivalent_witness :
    (1 < ("1/10" : String).length ∧ endswith_slash "1/10" = false) ∧
    (ensureSlash "1/10" = ensureSlash ("1/10" ++ "/") ∧
     release_files "req-7" "1/10" "embargo-b" "publish-b" [] =
       release_files "req-7" ("1/10" ++ "/") "embargo-b" "publish-b" [] ∧
     (∀ copyF deleteF putF ck dk,
       release_files_main copyF deleteF putF (ensureSlash "1/10") "embargo-b" "publish-b" ck dk =
         release_files_main copyF deleteF putF (ensureSlash ("1/10" ++ "/"))
           "embargo-b" "publish-b" ck dk)) :=
  ⟨⟨by decide, by decide⟩,
   C7_trailing_separator_equivalent "1/10" (by decide) (by decide) "req-7"
     "embargo-b" "publish-b" []⟩

/-- C8: every prefix whose normalized form has length at most 1 — exactly
the empty and the root prefix — fails the length assertion, so
`release_files` raises `AssertionError` with an empty store-operation trace:
no store operation is ever performed for such a prefix. -/
theorem C8_short_prefix_rejected_before_store_ops (rid pfx eb pb : String) (st : Store)
    (h : (ensureSlash pfx).length ≤ 1) :
    release_files rid pfx eb pb st = ([], Except.error PyErr.assertionError) ∧
    (pfx = "" ∨ pfx = "/") := by
  refine ⟨?_, (ensureSlash_short_iff pfx).1 h⟩
  have hend := ensureSlash_endswith pfx
  simp only [release_files]
  rw [if_neg (by simp [hend]), if_pos (by omega)]

/-- Witness for C8 at the empty prefix. -/
theorem C8_short_prefix_rejected_before_store_ops_witness :
    (ensureSlash "").length ≤ 1 ∧
    (release_files "req-8" "" "embargo-b" "publish-b" [] =
      ([], Except.error PyErr.assertionError) ∧
     (("" : String) = "" ∨ ("" : String) = "/")) :=
  ⟨by decide, C8_short_prefix_rejected_before_store_ops "req-8" "" "embargo-b" "publish-b" []
    (by decide)⟩

-- --------------------------------------------------------------------------
-- Facts about the multipart copy engine
-- --------------------------------------------------------------------------

lemma copy_parts_ok (api : S3CopyApi) (req : CopyRequest) (uid : String)
    (hup : ∀ b k cs u rg n, ∃ pr, api.upload_part_copy b k cs u rg n = Except.ok pr) :
    ∀ ranges n, ∃ tr entries,
      FileCopier.copy_parts api req uid n ranges = (tr, Except.ok entries) := by
  intro ranges
  induction ranges with
  | nil => exact fun n => ⟨[], [], rfl⟩
  | cons rg rest ih =>
    intro n
    obtain ⟨pr, hpr⟩ := hup req.target_bucket req.target_key
      (req.source_bucket, req.source_key) uid rg (n + 1)
    obtain ⟨tr, es, hrec⟩ := ih (n + 1)
    refine ⟨CopyEv.uploadPartCopy uid (n + 1) rg :: tr,
      toPartEntry pr (n + 1) :: es, ?_⟩
    simp only [FileCopier.copy_parts, hpr, hrec]

/-- C9: an attribute-fetch outcome in which any of size, version id, ETag or
SHA-256 checksum is unavailable is non-fatal: the resulting
`ObjectAttributes` carries the sentinel values (size `0`, string `"none"`),
and the copy proceeds to a successful completion carrying exactly those
sentinel-filled source attributes instead of aborting, provided the store
calls themselves succeed. -/
theorem C9_missing_attributes_nonfatal (api : S3CopyApi) (mps : Nat)
    (req : CopyRequest) (uid : String) (r : GetAttrsResponse)
    (hc : api.create_multipart_upload req.target_bucket req.target_key
      req.checksum_algorithm = Except.ok uid)
    (hg : api.get_object_attributes req.source_bucket req.source_key = Except.ok r)
    (hup : ∀ b k cs u rg n, ∃ pr, api.upload_part_copy b k cs u rg n = Except.ok pr)
    (hcm : ∀ b k u es, api.complete_multipart_upload b k u es = Except.ok ())
    (hg2 : ∃ r2, api.get_object_attributes req.target_bucket req.target_key = Except.ok r2) :
    (r.objectSize = none →
      (get_object_attributes req.source_bucket req.source_key r).size = 0) ∧
    (r.versionId = none →
      (get_object_attributes req.source_bucket req.source_key r).version_id = "none") ∧
    (r.etag = none →
      (get_object_attributes req.source_bucket req.source_key r).etag = "none") ∧
    ((r.checksum = none ∨ r.checksum = some none) →
      (get_object_attributes req.source_bucket req.source_key r).sha256 = "none") ∧
    ∃ res, (FileCopier.copy api mps req).2 = Except.ok res ∧
      res.source_size =
        toString (get_object_attributes req.source_bucket req.source_key r).size ∧
      res.source_version_id =
        (get_object_attributes req.source_bucket req.source_key r).version_id ∧
      res.source_etag = (get_object_attributes req.source_bucket req.source_key r).etag ∧
      res.source_sha256 = (get_object_attributes req.source_bucket req.source_key r).sha256 := by
  refine ⟨?_, ?_, ?_, ?_, ?_⟩
  · intro h
    simp [get_object_attributes, h]
  · intro h
    simp [get_object_attributes, h]
  · intro h
    simp [get_object_attributes, h]
  · rintro (h | h) <;> simp [get_object_attributes, h]
  · obtain ⟨tr, es, hcp⟩ := copy_parts_ok api req uid hup
      (generate_part_list (get_object_attributes req.source_bucket req.source_key r).size mps) 0
    obtain ⟨r2, hr2⟩ := hg2
    have hmain : (FileCopier.copy api mps req).2 = Except.ok
        { source_bucket := req.source_bucket
          source_key := req.source_key
          source_size := toString
            (get_object_attributes req.source_bucket req.source_key r).size
          source_version_id :=
            (get_object_attributes req.source_bucket req.source_key r).version_id
          source_etag := (get_object_attributes req.source_bucket req.source_key r).etag
          source_sha256 := (get_object_attributes req.source_bucket req.source_key r).sha256
          target_bucket := req.target_bucket
          target_key := req.target_key
          target_size := toString
            (get_object_attributes req.target_bucket req.target_key r2).size
          target_version_id :=
            (get_object_attributes req.target_bucket req.target_key r2).version_id
          target_etag := (get_object_attributes req.target_bucket req.target_key r2).etag
          target_sha256 :=
            (get_object_attributes req.target_bucket req.target_key r2).sha256 } := by
      simp only [FileCopier.copy, hc, hg, hcp, hcm, hr2]
      rfl
    exact ⟨_, hmain, rfl, rfl, rfl, rfl⟩

/-- Witness for C9: a response missing every optional attribute still copies
successfully with sentinel attribute values. -/
theorem C9_missing_attributes_nonfatal_witness :
    (apiAllOk.create_multipart_upload req0.target_bucket req0.target_key
       req0.checksum_algorithm = Except.ok "uid-0" ∧
     apiAllOk.get_object_attributes req0.source_bucket req0.source_key =
       Except.ok ⟨none, none, none, none⟩ ∧
     (∀ b k cs u rg n, ∃ pr, apiAllOk.upload_part_copy b k cs u rg n = Except.ok pr) ∧
     (∀ b k u es, apiAllOk.complete_multipart_upload b k u es = Except.ok ()) ∧
     (∃ r2, apiAllOk.get_object_attributes req0.target_bucket req0.target_key =
       Except.ok r2)) ∧
    ((( ⟨none, none, none, none⟩ : GetAttrsResponse).objectSize = none →
      (get_object_attributes req0.source_bucket req0.source_key
        ⟨none, none, none, none⟩).size = 0) ∧
     ((( ⟨none, none, none, none⟩ : GetAttrsResponse).versionId = none) →
      (get_object_attributes req0.source_bucket req0.source_key
        ⟨none, none, none, none⟩).version_id = "none") ∧
     ((( ⟨none, none, none, none⟩ : GetAttrsResponse).etag = none) →
      (get_object_attributes req0.source_bucket req0.source_key
        ⟨none, none, none, none⟩).etag = "none") ∧
     ((( ⟨none, none, none, none⟩ : GetAttrsResponse).checksum = none ∨
       (( ⟨none, none, none, none⟩ : GetAttrsResponse).checksum = some none)) →
      (get_object_attributes req0.source_bucket req0.source_key
        ⟨none, none, none, none⟩).sha256 = "none") ∧
     ∃ res, (FileCopier.copy apiAllOk 5 req0).2 = Except.ok res ∧
       res.source_size = toString (get_object_attributes req0.source_bucket
         req0.source_key ⟨none, none, none, none⟩).size ∧
       res.source_version_id = (get_object_attributes req0.source_bucket
         req0.source_key ⟨none, none, none, none⟩).version_id ∧
       res.source_etag = (get_object_attributes req0.source_bucket
         req0.source_key ⟨none, none, none, none⟩).etag ∧
       res.source_sha256 = (get_object_attributes req0.source_bucket
         req0.source_key ⟨none, none, none, none⟩).sha256) :=
  ⟨⟨rfl, rfl, fun _ _ _ _ _ _ => ⟨_, rfl⟩, fun _ _ _ _ => rfl, ⟨_, rfl⟩⟩,
   C9_missing_attributes_nonfatal apiAllOk 5 req0 "uid-0" ⟨none, none, none, none⟩
     rfl rfl (fun _ _ _ _ _ _ => ⟨_, rfl⟩) (fun _ _ _ _ => rfl) ⟨_, rfl⟩⟩

/-- C10: for a reported source size of 0 the engine completes the multipart
transfer with an empty parts list — the trace holds no `upload_part_copy`
call and exactly one `complete_multipart_upload` call submitting 0 parts —
and no single-call copy is ever issued (the engine has no such path). -/
theorem C10_zero_size_empty_parts (api : S3CopyApi) (mps : Nat)
    (req : CopyRequest) (uid : String) (r : GetAttrsResponse)
    (hc : api.create_multipart_upload req.target_bucket req.target_key
      req.checksum_algorithm = Except.ok uid)
    (hg : api.get_object_attributes req.source_bucket req.source_key = Except.ok r)
    (h0 : r.objectSize = some 0)
    (hcm : api.complete_multipart_upload req.target_bucket req.target_key uid [] =
      Except.ok ())
    (hg2 : ∃ r2, api.get_object_attributes req.target_bucket req.target_key = Except.ok r2) :
    generate_part_list 0 mps = [] ∧
    (FileCopier.copy api mps req).1 =
      [CopyEv.createMultipart req.target_bucket req.target_key,
       CopyEv.getAttrs req.source_bucket req.source_key,
       CopyEv.completeMultipart req.target_bucket req.target_key uid 0,
       CopyEv.getAttrs req.target_bucket req.target_key] ∧
    (∃ res, (FileCopier.copy api mps req).2 = Except.ok res) ∧
    (∀ u n rg, CopyEv.uploadPartCopy u n rg ∉ (FileCopier.copy api mps req).1) ∧
    (FileCopier.copy api mps req).1.countP
      (fun e => match e with
        | CopyEv.completeMultipart _ _ _ _ => true
        | _ => false) = 1 ∧
    (∀ sb sk tb tk, CopyEv.copyObject sb sk tb tk ∉ (FileCopier.copy api mps req).1) := by
  obtain ⟨r2, hr2⟩ := hg2
  have hsize : (get_object_attributes req.source_bucket req.source_key r).size = 0 := by
    simp [get_object_attributes, h0]
  have hparts : generate_part_list
      (get_object_attributes req.source_bucket req.source_key r).size mps = [] := by
    rw [hsize]
    rfl
  have hcp : FileCopier.copy_parts api req uid 0 (generate_part_list
      (get_object_attributes req.source_bucket req.source_key r).size mps) =
      ([], Except.ok []) := by
    rw [hparts]
    rfl
  have hmain : FileCopier.copy api mps req =
      ([CopyEv.createMultipart req.target_bucket req.target_key,
        CopyEv.getAttrs req.source_bucket req.source_key,
        CopyEv.completeMultipart req.target_bucket req.target_key uid 0,
        CopyEv.getAttrs req.target_bucket req.target_key],
       Except.ok
         { source_bucket := req.source_bucket
           source_key := req.source_key
           source_size := toString
             (get_object_attributes req.source_bucket req.source_key r).size
           source_version_id :=
             (get_object_attributes req.source_bucket req.source_key r).version_id
           source_etag := (get_object_attributes req.source_bucket req.source_key r).etag
           source_sha256 :=
             (get_object_attributes req.source_bucket req.source_key r).sha256
           target_bucket := req.target_bucket
           target_key := req.target_key
           target_size := toString
             (get_object_attributes req.target_bucket req.target_key r2).size
           target_version_id :=
             (get_object_attributes req.target_bucket req.target_key r2).version_id
           target_etag := (get_object_attributes req.target_bucket req.target_key r2).etag
           target_sha256 :=
             (get_object_attributes req.target_bucket req.target_key r2).sha256 }) := by
    simp only [FileCopier.copy, hc, hg, hcp, hcm, hr2]
    rfl
  refine ⟨rfl, by rw [hmain], ⟨_, by rw [hmain]⟩, ?_, ?_, ?_⟩
  · intro u n rg hmem
    rw [hmain] at hmem
    simp at hmem
  · rw [hmain]
    simp [List.countP_cons]
  · intro sb sk tb tk hmem
    rw [hmain] at hmem
    simp at hmem

/-- Witness for C10 on a concrete zero-size object. -/
theorem C10_zero_size_empty_parts_witness :
    (apiSize0.create_multipart_upload req0.target_bucket req0.target_key
       req0.checksum_algorithm = Except.ok "uid-z" ∧
     apiSize0.get_object_attributes req0.source_bucket req0.source_key =
       Except.ok ⟨some 0, some "v1", some "etag-0", some (some "sha-0")⟩ ∧
     (( ⟨some 0, some "v1", some "etag-0", some (some "sha-0")⟩ :
        GetAttrsResponse).objectSize = some 0) ∧
     apiSize0.complete_multipart_upload req0.target_bucket req0.target_key "uid-z" [] =
       Except.ok () ∧
     (∃ r2, apiSize0.get_object_attributes req0.target_bucket req0.target_key =
       Except.ok r2)) ∧
    (generate_part_list 0 5 = [] ∧
     (FileCopier.copy apiSize0 5 req0).1 =
       [CopyEv.createMultipart req0.target_bucket req0.target_key,
        CopyEv.getAttrs req0.source_bucket req0.source_key,
        CopyEv.completeMultipart req0.target_bucket req0.target_key "uid-z" 0,
        CopyEv.getAttrs req0.target_bucket req0.target_key] ∧
     (∃ res, (FileCopier.copy apiSize0 5 req0).2 = Except.ok res) ∧
     (∀ u n rg, CopyEv.uploadPartCopy u n rg ∉ (FileCopier.copy apiSize0 5 req0).1) ∧
     (FileCopier.copy apiSize0 5 req0).1.countP
       (fun e => match e with
         | CopyEv.completeMultipart _ _ _ _ => true
         | _ => false) = 1 ∧
     (∀ sb sk tb tk, CopyEv.copyObject sb sk tb tk ∉ (FileCopier.copy apiSize0 5 req0).1)) :=
  ⟨⟨rfl, rfl, rfl, rfl, ⟨_, rfl⟩⟩,
   C10_zero_size_empty_parts apiSize0 5 req0 "uid-z"
     ⟨some 0, some "v1", some "etag-0", some (some "sha-0")⟩ rfl rfl rfl rfl ⟨_, rfl⟩⟩

end DiscoverRelease
